import Mathlib

/-!
Verification of the spaced-repetition scheduling engine specification
against a shallow embedding of the engine.

The repository ships the engine only as a typed interface
(src/index.d.ts) whose doc comments carry the defining formulas; the
implementation bodies are not part of the repository sources.  All
definitions below are therefore modelled from the specification
(spec.md sections 3, 4 and 8) together with the formulas documented in
src/index.d.ts.  Real-valued formulas are embedded over ℝ (division by
zero follows the Lean convention x / 0 = 0); the parameter store and
the fuzz band, which the engine decides with exact comparisons, are
embedded over ℚ / ℤ so that they stay executable.
-/

/-- Modelled from the spec (§3) and src/index.d.ts (enum State): the four
lifecycle states of an item. -/
inductive State where
  | new
  | learning
  | review
  | relearning
deriving DecidableEq, Repr

/-- Modelled from the spec (§3) and src/index.d.ts (type Grade =
Exclude of Rating and Manual): the four review grades. -/
inductive Grade where
  | again
  | hard
  | good
  | easy
deriving DecidableEq, Repr

/-- Numeric value of a grade, matching the enum values 1..4 used in the
documented formulas (Again = 1, Hard = 2, Good = 3, Easy = 4). -/
def Grade.toNat : Grade → ℕ
  | .again => 1
  | .hard => 2
  | .good => 3
  | .easy => 4

/-- Modelled from the spec (§3) and src/index.d.ts (enum Rating): a log
rating is either the administrative Manual rating or one of the four
grades. -/
inductive Rating where
  | manual
  | grade (g : Grade)
deriving DecidableEq, Repr

/-- Stability floor, declared in src/index.d.ts: S_MIN = 0.01. -/
noncomputable def S_MIN : ℝ := 0.01

/-- Declared in src/index.d.ts: INIT_S_MAX = 100. -/
noncomputable def INIT_S_MAX : ℝ := 100

/-- Decay constant of the forgetting curve, documented in
src/index.d.ts as DECAY = -0.5. -/
noncomputable def DECAY : ℝ := -(1 / 2)

/-- Factor constant of the forgetting curve, documented in
src/index.d.ts as FACTOR = 19 / 81. -/
noncomputable def FACTOR : ℝ := 19 / 81

/-- Modelled from the spec (§4.2) and the formula documented at
src/index.d.ts lines 243-250: recall probability
R(t, S) = (1 + FACTOR * t / (9 * S)) ^ DECAY.  The body of the function
is not in the repository sources; the embedding follows the documented
formula literally, with real division (so stability 0 yields the total
degenerate value (1 + 0) ^ DECAY). -/
noncomputable def forgetting_curve (elapsed_days stability : ℝ) : ℝ :=
  (1 + FACTOR * elapsed_days / (9 * stability)) ^ DECAY

/-- Modelled from the spec (§4.3): initial stability w[g-1], floored at
0.1 (formula documented at src/index.d.ts lines 281-288). -/
noncomputable def init_stability (w : Fin 19 → ℝ) (g : Grade) : ℝ :=
  max (match g with
        | .again => w 0
        | .hard => w 1
        | .good => w 2
        | .easy => w 3) 0.1

/-- Modelled from the spec (§4.3): clamp a difficulty value into [1, 10]
(src/index.d.ts lines 326-331). -/
noncomputable def constrain_difficulty (difficulty : ℝ) : ℝ :=
  min (max difficulty 1) 10

/-- Modelled from the spec (§4.3): initial difficulty
D_0(G) = w[4] - e^((G-1) * w[5]) + 1, clamped to [1, 10]
(src/index.d.ts lines 289-298). -/
noncomputable def init_difficulty (w : Fin 19 → ℝ) (g : Grade) : ℝ :=
  constrain_difficulty (w 4 - Real.exp (((g.toNat : ℝ) - 1) * w 5) + 1)

/-- Modelled from the spec (§4.3): linear damping of a difficulty delta;
the raw delta is scaled by (10 - difficulty) / 9 when the delta is
negative (difficulty improving), and left unchanged otherwise
(src/index.d.ts line 315 and spec §4.3). -/
noncomputable def linear_damping (delta_d old_d : ℝ) : ℝ :=
  if delta_d < 0 then delta_d * (10 - old_d) / 9 else delta_d

/-- Modelled from the spec (§4.3): mean reversion
w[7] * init + (1 - w[7]) * current (src/index.d.ts lines 332-339). -/
noncomputable def mean_reversion (w : Fin 19 → ℝ) (init current : ℝ) : ℝ :=
  w 7 * init + (1 - w 7) * current

/-- Modelled from the spec (§4.3): next difficulty after a grading
event; delta = -w[6] * (g - 3) with linear damping, blended by mean
reversion toward the initial Easy difficulty, clamped to [1, 10]
(src/index.d.ts lines 316-325). -/
noncomputable def next_difficulty (w : Fin 19 → ℝ) (d : ℝ) (g : Grade) : ℝ :=
  constrain_difficulty
    (mean_reversion w (init_difficulty w .easy)
      (d + linear_damping (-(w 6) * ((g.toNat : ℝ) - 3)) d))

/-- Modelled from the spec (§4.3): stability growth on successful
recall, following the formula documented at src/index.d.ts lines
340-349. -/
noncomputable def next_recall_stability (w : Fin 19 → ℝ) (d s r : ℝ) (g : Grade) : ℝ :=
  let hard_penalty : ℝ := if g = .hard then w 15 else 1
  let easy_bonus : ℝ := if g = .easy then w 16 else 1
  s * (Real.exp (w 8) * (11 - d) * s ^ (-(w 9)) *
        (Real.exp (w 10 * (1 - r)) - 1) * hard_penalty * easy_bonus + 1)

/-- Modelled from the spec (§4.3): stability after a lapse,
w[11] * d^(-w[12]) * ((s+1)^w[13] - 1) * e^(w[14] * (1 - r)), floored at
S_MIN and then capped at s / e^(w[17] * w[18]) when short-term mode is
enabled, else capped at s itself (formula documented at
src/index.d.ts lines 350-360). -/
noncomputable def next_forget_stability (w : Fin 19 → ℝ) (enable_short_term : Bool)
    (d s r : ℝ) : ℝ :=
  min (max (w 11 * d ^ (-(w 12)) * ((s + 1) ^ (w 13) - 1) *
            Real.exp (w 14 * (1 - r))) S_MIN)
    (if enable_short_term then s / Real.exp (w 17 * w 18) else s)

/-- Modelled from the spec (§4.3): within-session stability update,
s * e^(w[17] * (g - 3 + w[18])) (src/index.d.ts lines 361-367). -/
noncomputable def next_short_term_stability (w : Fin 19 → ℝ) (s : ℝ) (g : Grade) : ℝ :=
  s * Real.exp (w 17 * ((g.toNat : ℝ) - 3 + w 18))

/-- Modelled from the spec (§3): the minimal memory-state projection. -/
structure FSRSState where
  stability : ℝ
  difficulty : ℝ

/-- Modelled from the spec (§4.3): the single entry point combining the
memory-update formulas.  A missing memory state is initialized via
init_stability / init_difficulty; otherwise retrievability is computed
from the elapsed time and the update dispatches on whether the grade is
a success (Hard/Good/Easy) or a failure (Again)
(src/index.d.ts lines 369-377). -/
noncomputable def next_state (w : Fin 19 → ℝ) (enable_short_term : Bool)
    (memory_state : Option FSRSState) (t : ℝ) (g : Grade) : FSRSState :=
  match memory_state with
  | none => ⟨init_stability w g, init_difficulty w g⟩
  | some st =>
    let r := forgetting_curve t st.stability
    let s :=
      if g = .again then next_forget_stability w enable_short_term st.difficulty st.stability r
      else next_recall_stability w st.difficulty st.stability r g
    ⟨s, next_difficulty w st.difficulty g⟩

/-- Lower bound actually guaranteed for the stability produced by
next_state: 0.1 for an initial state; for an existing state S_MIN,
weakened to min S_MIN (s / e^(w[17] * w[18])) when short-term mode is
enabled (the lapse cap can undercut S_MIN). -/
noncomputable def memory_floor (w : Fin 19 → ℝ) (enable_short_term : Bool)
    (memory_state : Option FSRSState) : ℝ :=
  match memory_state with
  | none => 0.1
  | some st =>
    if enable_short_term then min S_MIN (st.stability / Real.exp (w 17 * w 18)) else S_MIN

/-- Modelled from the spec (§4.2): the interval modifier inverting the
forgetting curve, (retention^(1/DECAY) - 1) / FACTOR
(src/index.d.ts lines 261-268). -/
noncomputable def calculate_interval_modifier (request_retention : ℝ) : ℝ :=
  (request_retention ^ ((1 : ℝ) / DECAY) - 1) / FACTOR

/-- Modelled from the spec (§3): the validated parameter set used by
the real-valued algorithm layer. -/
structure Params where
  request_retention : ℝ
  maximum_interval : ℤ
  w : Fin 19 → ℝ
  enable_fuzz : Bool
  enable_short_term : Bool

/-- Modelled from the spec (§4.2): next_interval multiplies stability
by the interval modifier, rounds to whole days, and clamps the result
to [1, maximum_interval] (src/index.d.ts lines 306-311).  The
elapsed-days argument mirrors the declared signature; fuzzing is the
separate operation apply_fuzz. -/
noncomputable def next_interval (p : Params) (s elapsed_days : ℝ) : ℤ :=
  min (max (round (s * calculate_interval_modifier p.request_retention)) 1)
    p.maximum_interval

/-- Modelled from the spec (§4.2): the fuzz band of an interval; a
banded delta that widens with interval size, applied around the
interval capped at maximum_interval; the lower edge is floored at 2 and
the band respects maximum_interval.  The band constants are fixed
representative values (the source carries only the declared signature,
src/index.d.ts lines 225-228); per the spec the band is a function of
the rounded interval and maximum_interval only, so the elapsed_days
argument of the declared signature does not enter the computation. -/
def get_fuzz_range (interval elapsed_days maximum_interval : ℚ) : ℚ × ℚ :=
  let delta : ℚ := 1 + (15 / 100) * max (min interval 7 - 5 / 2) 0
      + (1 / 10) * max (min interval 20 - 7) 0
      + (1 / 20) * max (interval - 20) 0
  let ivl : ℚ := min interval maximum_interval
  let min_ivl : ℚ := max 2 ((round (ivl - delta) : ℤ) : ℚ)
  let max_ivl : ℚ := min ((round (ivl + delta) : ℤ) : ℚ) maximum_interval
  (min min_ivl max_ivl, max_ivl)

/-- Modelled from the spec (§4.2, §5): the injectable pseudo-random
source behind fuzzing, reduced to a pure function of an explicit seed
(a linear congruential step). -/
def fuzz_rand (seed : ℕ) : ℕ :=
  (seed * 1103515245 + 12345) % 2147483648

/-- Modelled from the spec (§4.2): when fuzzing is enabled and the
interval is at least 2.5 days, pick a value inside the fuzz band
deterministically from the seed; otherwise return the interval
unchanged (src/index.d.ts lines 299-305). -/
def apply_fuzz (p : Params) (seed : ℕ) (ivl : ℤ) (elapsed_days : ℤ) : ℤ :=
  if p.enable_fuzz ∧ (5 / 2 : ℚ) ≤ (ivl : ℚ) then
    let range := get_fuzz_range (ivl : ℚ) (elapsed_days : ℚ) (p.maximum_interval : ℚ)
    let lo : ℤ := ⌈range.1⌉
    let hi : ℤ := ⌊range.2⌋
    lo + (fuzz_rand seed : ℤ) % (max (hi - lo + 1) 1)
  else ivl

/-- Default target retention, declared in src/index.d.ts:
default_request_retention = 0.9. -/
def default_request_retention : ℚ := 9 / 10

/-- Default interval cap, declared in src/index.d.ts:
default_maximum_interval = 36500. -/
def default_maximum_interval : ℤ := 36500

/-- Default fuzz flag, declared in src/index.d.ts:
default_enable_fuzz = false. -/
def default_enable_fuzz : Bool := false

/-- Default short-term flag, declared in src/index.d.ts:
default_enable_short_term = true. -/
def default_enable_short_term : Bool := true

/-- Modelled from the spec (§3): the default weight vector default_w is
declared in src/index.d.ts but its numeric values are not part of the
repository sources; only its length (19, indices w[0]..w[18] in the
documented formulas) is determined.  Any fixed vector of that length
serves the claims, none of which depends on the default values. -/
def default_w : List ℚ := List.replicate 19 (1 / 2)

/-- Modelled from the spec (§3, §4.1): the validated parameter store at
the constructor level (exact rational arithmetic; the engine compares
these values exactly). -/
structure FSRSParameters where
  request_retention : ℚ
  maximum_interval : ℤ
  w : List ℚ
  enable_fuzz : Bool
  enable_short_term : Bool
deriving DecidableEq, Repr

/-- Modelled from the spec (§4.1): a partial override of the parameter
defaults, as accepted by generatorParameters. -/
structure PartialFSRSParameters where
  request_retention : Option ℚ := none
  maximum_interval : Option ℤ := none
  w : Option (List ℚ) := none
  enable_fuzz : Option Bool := none
  enable_short_term : Option Bool := none

/-- Modelled from the spec (§7): configuration errors raised at
parameter construction. -/
inductive ParamError where
  | invalid_retention
  | invalid_w
deriving DecidableEq, Repr

/-- Modelled from the spec (§4.1): construct parameters from a partial
override merged onto the documented defaults; request_retention must
lie in (0, 1] and the weight vector must have the documented length 19
(the spec fixes no numeric domain for the individual weights), all
failures are loud errors and accepted inputs are never clamped
(src/index.d.ts lines 101-102). -/
def generatorParameters (props : PartialFSRSParameters) : Except ParamError FSRSParameters :=
  let r := props.request_retention.getD default_request_retention
  let w := props.w.getD default_w
  if 0 < r ∧ r ≤ 1 then
    if w.length = 19 then
      .ok ⟨r, props.maximum_interval.getD default_maximum_interval, w,
        props.enable_fuzz.getD default_enable_fuzz,
        props.enable_short_term.getD default_enable_short_term⟩
    else .error .invalid_w
  else .error .invalid_retention

/-- Modelled from the spec (§3): an item (Card), with timestamps as
integer minutes since an epoch (src/index.d.ts lines 36-46). -/
structure Card where
  due : ℤ
  stability : ℝ
  difficulty : ℝ
  elapsed_days : ℤ
  scheduled_days : ℤ
  reps : ℕ
  lapses : ℕ
  state : State
  last_review : Option ℤ

/-- Modelled from the spec (§3): the immutable record of one grading
event; due, stability, difficulty, state, scheduled_days and
last_elapsed_days hold the item values from before the event
(src/index.d.ts lines 18-28). -/
structure ReviewLog where
  rating : Rating
  state : State
  due : ℤ
  stability : ℝ
  difficulty : ℝ
  elapsed_days : ℤ
  last_elapsed_days : ℤ
  scheduled_days : ℤ
  review : ℤ

/-- Modelled from the spec (§3): a schedule outcome pairing the updated
item with the log entry that produced it (src/index.d.ts lines 29-32). -/
structure RecordLogItem where
  card : Card
  log : ReviewLog

/-- Modelled from the spec (§6): construct an empty New-state item at
the given time (src/index.d.ts line 133). -/
def createEmptyCard (now : ℤ) : Card :=
  { due := now, stability := 0, difficulty := 0, elapsed_days := 0,
    scheduled_days := 0, reps := 0, lapses := 0, state := .new,
    last_review := none }

/-- Minutes in a day, used to convert whole-day intervals to the minute
timestamps of the embedding. -/
def minutes_per_day : ℤ := 1440

/-- Elapsed whole days between the recorded last review and now
(0 for an item that was never reviewed). -/
def card_elapsed_days (c : Card) (now : ℤ) : ℤ :=
  match c.last_review with
  | none => 0
  | some lr => max 0 ((now - lr) / minutes_per_day)

/-- Modelled from the spec (§3, §4.4): the log entry recording a grading
event is the pre-event snapshot of the item together with the event
rating, the event time and the freshly computed elapsed days. -/
def buildLog (c : Card) (now : ℤ) (g : Grade) (elapsed : ℤ) : ReviewLog :=
  { rating := .grade g, state := c.state, due := c.due,
    stability := c.stability, difficulty := c.difficulty,
    elapsed_days := elapsed, last_elapsed_days := c.elapsed_days,
    scheduled_days := c.scheduled_days, review := now }

/-- Bookkeeping shared by every transition of the scheduler: the new
elapsed days, one more rep, one more lapse exactly when a Review item
is graded Again, and the event time as the new last review
(spec §4.4). -/
def card_base (c : Card) (now : ℤ) (g : Grade) (elapsed : ℤ) : Card :=
  { c with
    elapsed_days := elapsed
    reps := c.reps + 1
    lapses := c.lapses + (if g = Grade.again ∧ c.state = State.review then 1 else 0)
    last_review := some now }

/-- Short learning step in minutes used by the modelled scheduler for
the Again grade on a fresh item; the spec (§4.4) fixes only that the
initial non-Easy intervals are short, so the concrete steps are
representative policy constants of the model. -/
def step_again : ℤ := 1

/-- Short learning step in minutes for the Hard grade (see step_again). -/
def step_hard : ℤ := 5

/-- Short learning step in minutes for the Good grade (see step_again). -/
def step_good : ℤ := 10

/-- Interval in whole days scheduled for a graduating transition,
including optional fuzz (spec §4.4: the next due date comes from
next_interval plus optional fuzz). -/
noncomputable def graduated_interval (p : Params) (seed : ℕ) (s : ℝ) (elapsed : ℤ) : ℤ :=
  apply_fuzz p seed (next_interval p s (elapsed : ℝ)) elapsed

/-- Modelled from the spec (§4.4, §6): commit one grade on an item at a
given time, producing the updated item and the log entry of the event
(operation next / apply_grade of the interface, src/index.d.ts line
531).  Per-state transition logic follows spec §4.4: New initializes
the memory state and graduates directly on Easy; Learning/Relearning
adjust stability with the short-term formula and graduate on Good/Easy;
Review dispatches on recall/forget, entering Relearning on Again. -/
noncomputable def apply_grade (p : Params) (seed : ℕ) (c : Card) (now : ℤ) (g : Grade) :
    RecordLogItem :=
  let elapsed := card_elapsed_days c now
  let base := card_base c now g elapsed
  let log := buildLog c now g elapsed
  let card :=
    match c.state, g with
    | .new, .easy =>
      let s := init_stability p.w .easy
      let ivl := graduated_interval p seed s elapsed
      { base with
        stability := s
        difficulty := init_difficulty p.w .easy
        state := .review
        scheduled_days := ivl
        due := now + ivl * minutes_per_day }
    | .new, g =>
      { base with
        stability := init_stability p.w g
        difficulty := init_difficulty p.w g
        state := .learning
        scheduled_days := 0
        due := now + (match g with | .again => step_again | .hard => step_hard | _ => step_good) }
    | .learning, .again | .relearning, .again =>
      { base with
        stability := next_short_term_stability p.w c.stability .again
        difficulty := next_difficulty p.w c.difficulty .again
        scheduled_days := 0
        due := now + step_again }
    | .learning, .hard | .relearning, .hard =>
      { base with
        stability := next_short_term_stability p.w c.stability .hard
        difficulty := next_difficulty p.w c.difficulty .hard
        scheduled_days := 0
        due := now + step_hard }
    | .learning, g | .relearning, g =>
      let s := next_short_term_stability p.w c.stability g
      let ivl := graduated_interval p seed s elapsed
      { base with
        stability := s
        difficulty := next_difficulty p.w c.difficulty g
        state := .review
        scheduled_days := ivl
        due := now + ivl * minutes_per_day }
    | .review, .again =>
      let r := forgetting_curve (elapsed : ℝ) c.stability
      { base with
        stability := next_forget_stability p.w p.enable_short_term c.difficulty c.stability r
        difficulty := next_difficulty p.w c.difficulty .again
        state := .relearning
        scheduled_days := 0
        due := now + step_hard }
    | .review, g =>
      let r := forgetting_curve (elapsed : ℝ) c.stability
      let s := next_recall_stability p.w c.difficulty c.stability r g
      let ivl := graduated_interval p seed s elapsed
      { base with
        stability := s
        difficulty := next_difficulty p.w c.difficulty g
        state := .review
        scheduled_days := ivl
        due := now + ivl * minutes_per_day }
  ⟨card, log⟩

/-- Modelled from the spec (§4.6, §6): reconstruct the item state from
before the event recorded by the log, by restoring the logged pre-event
fields and decrementing the rep and lapse counters; a Manual log cannot
be rolled back (src/index.d.ts lines 541-565).  The log carries no
last_review snapshot, so the restored item leaves it empty: the claimed
inverse covers exactly the logged fields. -/
def rollback (c : Card) (log : ReviewLog) : Option Card :=
  match log.rating with
  | .manual => none
  | .grade g =>
    some
      { due := log.due, stability := log.stability, difficulty := log.difficulty,
        elapsed_days := log.last_elapsed_days, scheduled_days := log.scheduled_days,
        reps := c.reps - 1,
        lapses := c.lapses - (if g = Grade.again ∧ log.state = State.review then 1 else 0),
        state := log.state, last_review := none }

/-- Modelled from the spec (§4.5): one historical grading event; either
a plain grade at a review time, or a Manual event carrying an explicit
due/state override and optional stability/difficulty overrides
(src/index.d.ts lines 79-87). -/
inductive HistoryItem where
  | graded (rating : Grade) (review : ℤ)
  | manual (due : ℤ) (state : State) (review : ℤ)
      (stability : Option ℝ) (difficulty : Option ℝ)

/-- Modelled from the spec (§4.5): the reschedule options; the review
order is caller-supplied through an explicit comparator
(src/index.d.ts lines 154-186). -/
structure RescheduleOptions where
  reviewsOrderBy : HistoryItem → HistoryItem → ℤ
  skipManual : Bool
  update_memory_state : Bool
  now : ℤ

/-- Insert an element into a list sorted by the given binary ordering
test (stable insertion sort step). -/
def insertOrdered (le : HistoryItem → HistoryItem → Bool) (a : HistoryItem) :
    List HistoryItem → List HistoryItem
  | [] => [a]
  | b :: bs => if le a b then a :: b :: bs else b :: insertOrdered le a bs

/-- Stable insertion sort by the given binary ordering test, realizing
the caller-supplied comparator of the reschedule options. -/
def sortOrdered (le : HistoryItem → HistoryItem → Bool) :
    List HistoryItem → List HistoryItem
  | [] => []
  | a :: as => insertOrdered le a (sortOrdered le as)

/-- One replay step of the reschedule engine (spec §4.5): a graded
event replays the scheduler transition (with the memory-state update
suppressed when update_memory_state is off); a Manual event is either
skipped or applied as a direct state override without invoking the
numeric model. -/
noncomputable def reschedule_step (p : Params) (seed : ℕ) (opts : RescheduleOptions)
    (acc : Card × List RecordLogItem) (h : HistoryItem) : Card × List RecordLogItem :=
  match h with
  | .graded g rt =>
    let item := apply_grade p seed acc.1 rt g
    let c :=
      if opts.update_memory_state then item.card
      else { item.card with
             stability := acc.1.stability
             difficulty := acc.1.difficulty }
    (c, acc.2 ++ [⟨c, item.log⟩])
  | .manual due st rt os od =>
    if opts.skipManual then acc
    else
      let c : Card :=
        { acc.1 with
          due := due
          state := st
          stability := os.getD acc.1.stability
          difficulty := od.getD acc.1.difficulty
          last_review := some rt }
      let log : ReviewLog :=
        { rating := .manual, state := acc.1.state, due := acc.1.due,
          stability := acc.1.stability, difficulty := acc.1.difficulty,
          elapsed_days := card_elapsed_days acc.1 rt,
          last_elapsed_days := acc.1.elapsed_days,
          scheduled_days := acc.1.scheduled_days, review := rt }
      (c, acc.2 ++ [⟨c, log⟩])

/-- Modelled from the spec (§4.5, §6): feed the ordered review history
through the scheduler to reconstruct the final item state; returns the
full audit trail and the distinguished reschedule item (the final
outcome of the replay, or none for an empty effective history)
(src/index.d.ts lines 618-656). -/
noncomputable def reschedule (p : Params) (seed : ℕ) (current_card : Card)
    (reviews : List HistoryItem) (opts : RescheduleOptions) :
    List RecordLogItem × Option RecordLogItem :=
  let le := fun a b => decide (opts.reviewsOrderBy a b ≤ 0)
  let sorted := sortOrdered le reviews
  let result := sorted.foldl (reschedule_step p seed opts) (current_card, [])
  (result.2, result.2.getLast?)

lemma S_MIN_pos : (0 : ℝ) < S_MIN := by norm_num [S_MIN]

lemma one_le_exp_of_nonneg {x : ℝ} (hx : 0 ≤ x) : 1 ≤ Real.exp x := by
  have h := Real.add_one_le_exp x
  linarith

lemma one_lt_exp_one : (1 : ℝ) < Real.exp 1 := by
  have h := Real.add_one_le_exp (1 : ℝ)
  linarith

lemma constrain_difficulty_ge_one (x : ℝ) : 1 ≤ constrain_difficulty x :=
  le_min (le_max_right _ _) (by norm_num)

lemma constrain_difficulty_le_ten (x : ℝ) : constrain_difficulty x ≤ 10 :=
  min_le_right _ _

lemma forgetting_curve_le_one {t s : ℝ} (ht : 0 ≤ t) (hs : 0 < s) :
    forgetting_curve t s ≤ 1 := by
  unfold forgetting_curve
  apply Real.rpow_le_one_of_one_le_of_nonpos
  · have h : 0 ≤ FACTOR * t / (9 * s) := by
      apply div_nonneg
      · exact mul_nonneg (by norm_num [FACTOR]) ht
      · positivity
    linarith
  · norm_num [DECAY]

lemma next_forget_stability_le_cap (w : Fin 19 → ℝ) (d s r : ℝ) :
    next_forget_stability w true d s r ≤ s / Real.exp (w 17 * w 18) := by
  unfold next_forget_stability
  simp only [if_true]
  exact min_le_right _ _

lemma next_forget_stability_le_self (w : Fin 19 → ℝ) (est : Bool) (d s r : ℝ)
    (hs0 : 0 ≤ s) (hw : 0 ≤ w 17 * w 18) :
    next_forget_stability w est d s r ≤ s := by
  cases est with
  | false =>
    unfold next_forget_stability
    simp only [Bool.false_eq_true, if_false]
    exact min_le_right _ _
  | true =>
    calc next_forget_stability w true d s r ≤ s / Real.exp (w 17 * w 18) :=
          next_forget_stability_le_cap w d s r
      _ ≤ s := div_le_self hs0 (one_le_exp_of_nonneg hw)

lemma next_forget_stability_floor (w : Fin 19 → ℝ) (est : Bool) (d s r : ℝ)
    (hs : S_MIN ≤ s) :
    (if est then min S_MIN (s / Real.exp (w 17 * w 18)) else S_MIN) ≤
      next_forget_stability w est d s r := by
  cases est with
  | false =>
    unfold next_forget_stability
    simp only [Bool.false_eq_true, if_false]
    exact le_min (le_max_right _ _) hs
  | true =>
    unfold next_forget_stability
    simp only [if_true]
    exact le_min (le_trans (min_le_left _ _) (le_max_right _ _)) (min_le_right _ _)

lemma next_recall_stability_ge_self (w : Fin 19 → ℝ) (d s r : ℝ) (g : Grade)
    (hd2 : d ≤ 10) (hs0 : 0 ≤ s) (hr1 : r ≤ 1)
    (h10 : 0 ≤ w 10) (h15 : 0 ≤ w 15) (h16 : 0 ≤ w 16) :
    s ≤ next_recall_stability w d s r g := by
  unfold next_recall_stability
  show s ≤ s * (Real.exp (w 8) * (11 - d) * s ^ (-(w 9)) *
      (Real.exp (w 10 * (1 - r)) - 1) *
      (if g = Grade.hard then w 15 else 1) * (if g = Grade.easy then w 16 else 1) + 1)
  have hhp : (0 : ℝ) ≤ (if g = Grade.hard then w 15 else 1) := by
    split
    · exact h15
    · norm_num
  have heb : (0 : ℝ) ≤ (if g = Grade.easy then w 16 else 1) := by
    split
    · exact h16
    · norm_num
  have hgrow : (0 : ℝ) ≤ Real.exp (w 8) * (11 - d) * s ^ (-(w 9)) *
      (Real.exp (w 10 * (1 - r)) - 1) *
      (if g = Grade.hard then w 15 else 1) * (if g = Grade.easy then w 16 else 1) := by
    have h1 : (0 : ℝ) ≤ Real.exp (w 8) * (11 - d) := by
      have := Real.exp_pos (w 8)
      nlinarith
    have h2 : (0 : ℝ) ≤ s ^ (-(w 9)) := Real.rpow_nonneg hs0 _
    have h3 : (0 : ℝ) ≤ Real.exp (w 10 * (1 - r)) - 1 := by
      have hprod : (0 : ℝ) ≤ w 10 * (1 - r) := mul_nonneg h10 (by linarith)
      have := one_le_exp_of_nonneg hprod
      linarith
    have h12 := mul_nonneg h1 h2
    have h123 := mul_nonneg h12 h3
    exact mul_nonneg (mul_nonneg h123 hhp) heb
  nlinarith [mul_nonneg hs0 hgrow]

/-- C4 counterexample: the two halves of the claim are incompatible.
With the documented formula (1 + FACTOR * t / (9 * s)) ^ DECAY the
calibration point forgetting_curve(s, s) = 0.9 fails already at
stability 1: the value there is (748/729) ^ (-1/2), whose square is
729/748 and not 81/100. -/
theorem c4_counterexample : forgetting_curve 1 1 ≠ (9 / 10 : ℝ) := by
  intro h
  have hx : (0 : ℝ) < 748 / 729 := by norm_num
  have hb : forgetting_curve 1 1 = ((748 : ℝ) / 729) ^ DECAY := by
    unfold forgetting_curve
    norm_num [FACTOR]
  have hsum : DECAY + DECAY = (-1 : ℝ) := by norm_num [DECAY]
  have hsq : forgetting_curve 1 1 * forgetting_curve 1 1 = ((748 : ℝ) / 729)⁻¹ := by
    rw [hb, ← Real.rpow_add hx, hsum, Real.rpow_neg_one]
  rw [h] at hsq
  norm_num at hsq

/-- C4 (amended): forgetting_curve(t, s) equals
(1 + FACTOR * t / (9 * s)) ^ DECAY with the fixed constants
DECAY = -1/2 and FACTOR = 19/81, and with this formula the calibration
point retrievability = 0.9 is reached at elapsed_days = 9 * stability
(not at elapsed_days = stability): forgetting_curve(9 * s, s) = 0.9 for
every stability s > 0. -/
theorem c4_forgetting_curve_formula (t s : ℝ) (hs : 0 < s) :
    DECAY = -(1 / 2) ∧ FACTOR = 19 / 81 ∧
    forgetting_curve t s = (1 + (19 / 81) * t / (9 * s)) ^ (-(1 / 2) : ℝ) ∧
    forgetting_curve (9 * s) s = 9 / 10 := by
  refine ⟨rfl, rfl, rfl, ?_⟩
  have h9 : (9 : ℝ) * s ≠ 0 := by positivity
  have hb : 1 + FACTOR * (9 * s) / (9 * s) = (100 : ℝ) / 81 := by
    rw [mul_div_assoc, div_self h9]
    norm_num [FACTOR]
  unfold forgetting_curve
  rw [hb]
  have h1 : ((100 : ℝ) / 81) = ((10 : ℝ) / 9) ^ (2 : ℝ) := by
    rw [show (2 : ℝ) = ((2 : ℕ) : ℝ) by norm_num, Real.rpow_natCast]
    norm_num
  rw [h1, ← Real.rpow_mul (by norm_num : (0 : ℝ) ≤ 10 / 9)]
  rw [show (2 : ℝ) * DECAY = -1 by norm_num [DECAY], Real.rpow_neg_one]
  norm_num

/-- Witness for C4 at t = 5, s = 1. -/
theorem c4_witness :
    DECAY = -(1 / 2) ∧ FACTOR = 19 / 81 ∧
    forgetting_curve 5 1 = (1 + (19 / 81) * 5 / (9 * 1)) ^ (-(1 / 2) : ℝ) ∧
    forgetting_curve (9 * 1) 1 = 9 / 10 :=
  c4_forgetting_curve_formula 5 1 (by norm_num)

/-- C7: forgetting_curve is total at the boundary inputs: it returns
exactly 1 at elapsed_days = 0 for every positive stability, and at
stability = 0 it is still defined for every elapsed_days (in this
embedding, division by zero yields 0 and the degenerate value is
(1 + 0) ^ DECAY = 1, not a crash). -/
theorem c7_forgetting_curve_boundary :
    (∀ s : ℝ, 0 < s → forgetting_curve 0 s = 1) ∧
    (∀ t : ℝ, 0 ≤ t → forgetting_curve t 0 = 1) := by
  constructor
  · intro s hs
    unfold forgetting_curve
    rw [mul_zero, zero_div, add_zero, Real.one_rpow]
  · intro t ht
    unfold forgetting_curve
    rw [mul_zero, div_zero, add_zero, Real.one_rpow]

/-- Witness for C7 at s = 2 and t = 3. -/
theorem c7_witness : forgetting_curve 0 2 = 1 ∧ forgetting_curve 3 0 = 1 :=
  ⟨c7_forgetting_curve_boundary.1 2 (by norm_num),
   c7_forgetting_curve_boundary.2 3 (by norm_num)⟩

/-- C5 counterexample: the claimed unconditional floor at S_MIN fails.
With short-term mode enabled, weights w[17] = w[18] = 1, difficulty 5
(inside [1, 10]), stability exactly S_MIN = 0.01 and retrievability 1
(inside [0, 1]), the lapse cap s / e^(w17 * w18) = 0.01 / e lies below
S_MIN, and the result equals that cap, so the output is strictly below
S_MIN. -/
theorem c5_counterexample :
    (1 : ℝ) ≤ 5 ∧ (5 : ℝ) ≤ 10 ∧ S_MIN ≤ (0.01 : ℝ) ∧
    (0 : ℝ) ≤ 1 ∧ (1 : ℝ) ≤ (1 : ℝ) ∧
    next_forget_stability (fun _ => 1) true 5 0.01 1 < S_MIN := by
  refine ⟨by norm_num, by norm_num, by norm_num [S_MIN], by norm_num, le_rfl, ?_⟩
  have hcap := next_forget_stability_le_cap (fun _ => 1) 5 0.01 1
  have hlt : (0.01 : ℝ) / Real.exp ((1 : ℝ) * 1) < S_MIN := by
    rw [one_mul, S_MIN]
    exact div_lt_self (by norm_num) one_lt_exp_one
  calc next_forget_stability (fun _ => 1) true 5 0.01 1
      ≤ (0.01 : ℝ) / Real.exp ((1 : ℝ) * 1) := hcap
    _ < S_MIN := hlt

/-- C5 (amended): for every difficulty in [1, 10], stability at least
S_MIN, retrievability in [0, 1], and a nonnegative product
w[17] * w[18], the lapse stability never exceeds the prior stability
(and in short-term mode never exceeds s / e^(w17 * w18)), and it is
floored at S_MIN when short-term mode is disabled; with short-term mode
enabled the guaranteed floor weakens to
min S_MIN (s / e^(w17 * w18)), since the cap can undercut S_MIN. -/
theorem c5_next_forget_stability_bounds (w : Fin 19 → ℝ) (est : Bool) (d s r : ℝ)
    (hd1 : 1 ≤ d) (hd2 : d ≤ 10) (hs : S_MIN ≤ s) (hr0 : 0 ≤ r) (hr1 : r ≤ 1)
    (hw : 0 ≤ w 17 * w 18) :
    next_forget_stability w est d s r ≤ s ∧
    (est = true → next_forget_stability w est d s r ≤ s / Real.exp (w 17 * w 18)) ∧
    (if est then min S_MIN (s / Real.exp (w 17 * w 18)) else S_MIN) ≤
      next_forget_stability w est d s r := by
  have hs0 : (0 : ℝ) ≤ s := le_trans (le_of_lt S_MIN_pos) hs
  refine ⟨next_forget_stability_le_self w est d s r hs0 hw, ?_, ?_⟩
  · intro hest
    subst hest
    exact next_forget_stability_le_cap w d s r
  · exact next_forget_stability_floor w est d s r hs

/-- Witness for C5 at w = 1, short-term disabled, d = 2, s = 1,
r = 1/2. -/
theorem c5_witness :
    next_forget_stability (fun _ => 1) false 2 1 (1 / 2) ≤ 1 ∧
    (false = true →
      next_forget_stability (fun _ => 1) false 2 1 (1 / 2) ≤
        1 / Real.exp ((fun _ : Fin 19 => (1 : ℝ)) 17 * (fun _ : Fin 19 => (1 : ℝ)) 18)) ∧
    (if false then
        min S_MIN (1 / Real.exp ((fun _ : Fin 19 => (1 : ℝ)) 17 * (fun _ : Fin 19 => (1 : ℝ)) 18))
      else S_MIN) ≤ next_forget_stability (fun _ => 1) false 2 1 (1 / 2) :=
  c5_next_forget_stability_bounds (fun _ => 1) false 2 1 (1 / 2) (by norm_num)
    (by norm_num) (by norm_num [S_MIN]) (by norm_num) (by norm_num) (by norm_num)

/-- C1 counterexample: with short-term mode enabled and weights
w[17] = w[18] = 1, a valid memory state (stability exactly S_MIN,
difficulty 5) graded Again at elapsed time 0 yields a stability
strictly below S_MIN, refuting the claimed unconditional invariant
stability at least S_MIN. -/
theorem c1_counterexample :
    S_MIN ≤ (0.01 : ℝ) ∧ (1 : ℝ) ≤ 5 ∧ (5 : ℝ) ≤ 10 ∧ (0 : ℝ) ≤ 0 ∧
    (next_state (fun _ => 1) true (some ⟨0.01, 5⟩) 0 Grade.again).stability < S_MIN := by
  refine ⟨by norm_num [S_MIN], by norm_num, by norm_num, le_rfl, ?_⟩
  have hst : (next_state (fun _ => 1) true (some ⟨0.01, 5⟩) 0 Grade.again).stability =
      next_forget_stability (fun _ => 1) true 5 0.01
        (forgetting_curve 0 0.01) := by
    simp [next_state]
  rw [hst]
  have hcap := next_forget_stability_le_cap (fun _ => 1) 5 0.01 (forgetting_curve 0 0.01)
  have hlt : (0.01 : ℝ) / Real.exp ((1 : ℝ) * 1) < S_MIN := by
    rw [one_mul, S_MIN]
    exact div_lt_self (by norm_num) one_lt_exp_one
  calc next_forget_stability (fun _ => 1) true 5 0.01 (forgetting_curve 0 0.01)
      ≤ (0.01 : ℝ) / Real.exp ((1 : ℝ) * 1) := hcap
    _ < S_MIN := hlt

/-- C1 (amended): next_state is total, and for every valid input (a
memory state with stability at least S_MIN and difficulty in [1, 10],
nonnegative elapsed days, any non-Manual grade) and validated
nonnegative weights w[10], w[15], w[16], the produced difficulty lies
in [1, 10]; the produced stability is at least S_MIN except that with
short-term mode enabled an Again grade may go as low as
prior_stability / e^(w17 * w18) (the bound memory_floor; for an initial
state the floor is 0.1, above S_MIN). -/
theorem c1_next_state_invariants (w : Fin 19 → ℝ) (est : Bool)
    (ms : Option FSRSState) (t : ℝ) (g : Grade)
    (hms : ∀ st, ms = some st →
      S_MIN ≤ st.stability ∧ 1 ≤ st.difficulty ∧ st.difficulty ≤ 10)
    (ht : 0 ≤ t) (h10 : 0 ≤ w 10) (h15 : 0 ≤ w 15) (h16 : 0 ≤ w 16) :
    1 ≤ (next_state w est ms t g).difficulty ∧
    (next_state w est ms t g).difficulty ≤ 10 ∧
    memory_floor w est ms ≤ (next_state w est ms t g).stability := by
  cases ms with
  | none =>
    refine ⟨constrain_difficulty_ge_one _, constrain_difficulty_le_ten _, ?_⟩
    show (0.1 : ℝ) ≤ init_stability w g
    exact le_max_right _ _
  | some st =>
    obtain ⟨hs, hd1, hd2⟩ := hms st rfl
    have hs0 : (0 : ℝ) < st.stability := lt_of_lt_of_le S_MIN_pos hs
    refine ⟨constrain_difficulty_ge_one _, constrain_difficulty_le_ten _, ?_⟩
    show memory_floor w est (some st) ≤
      (if g = Grade.again then
        next_forget_stability w est st.difficulty st.stability
          (forgetting_curve t st.stability)
      else next_recall_stability w st.difficulty st.stability
          (forgetting_curve t st.stability) g)
    by_cases hg : g = Grade.again
    · rw [if_pos hg]
      have hfloor := next_forget_stability_floor w est st.difficulty st.stability
        (forgetting_curve t st.stability) hs
      calc memory_floor w est (some st)
          = (if est then min S_MIN (st.stability / Real.exp (w 17 * w 18))
             else S_MIN) := rfl
        _ ≤ _ := hfloor
    · rw [if_neg hg]
      have hr1 := forgetting_curve_le_one ht hs0
      have hge := next_recall_stability_ge_self w st.difficulty st.stability
        (forgetting_curve t st.stability) g hd2 (le_of_lt hs0) hr1 h10 h15 h16
      have hfl : memory_floor w est (some st) ≤ S_MIN := by
        show (if est then min S_MIN (st.stability / Real.exp (w 17 * w 18))
          else S_MIN) ≤ S_MIN
        cases est with
        | false => simp
        | true => simpa using min_le_left _ _
      calc memory_floor w est (some st) ≤ S_MIN := hfl
        _ ≤ st.stability := hs
        _ ≤ _ := hge

/-- Witness for C1 at w = 1, short-term disabled, memory state
(stability 1, difficulty 5), elapsed 0, grade Good. -/
theorem c1_witness :
    1 ≤ (next_state (fun _ => 1) false (some ⟨1, 5⟩) 0 Grade.good).difficulty ∧
    (next_state (fun _ => 1) false (some ⟨1, 5⟩) 0 Grade.good).difficulty ≤ 10 ∧
    memory_floor (fun _ => 1) false (some ⟨1, 5⟩) ≤
      (next_state (fun _ => 1) false (some ⟨1, 5⟩) 0 Grade.good).stability :=
  c1_next_state_invariants (fun _ => 1) false (some ⟨1, 5⟩) 0 Grade.good
    (fun st h => by
      cases h
      exact ⟨by norm_num [S_MIN], by norm_num, by norm_num⟩)
    le_rfl (by norm_num) (by norm_num) (by norm_num)

lemma apply_grade_log (p : Params) (seed : ℕ) (c : Card) (now : ℤ) (g : Grade) :
    (apply_grade p seed c now g).log = buildLog c now g (card_elapsed_days c now) :=
  rfl

lemma apply_grade_reps (p : Params) (seed : ℕ) (c : Card) (now : ℤ) (g : Grade) :
    (apply_grade p seed c now g).card.reps = c.reps + 1 := by
  obtain ⟨due, s, d, e, sc, reps, lapses, st, lr⟩ := c
  cases st <;> cases g <;> rfl

lemma apply_grade_lapses (p : Params) (seed : ℕ) (c : Card) (now : ℤ) (g : Grade) :
    (apply_grade p seed c now g).card.lapses =
      c.lapses + (if g = Grade.again ∧ c.state = State.review then 1 else 0) := by
  obtain ⟨due, s, d, e, sc, reps, lapses, st, lr⟩ := c
  cases st <;> cases g <;> rfl

/-- C2: rollback is an exact inverse of grading on the logged fields.
For every parameter set, seed, card, review time and non-Manual grade,
applying the grade and then rolling back the produced card with the
produced log restores the original values of due, stability,
difficulty, state, elapsed_days and scheduled_days, and decrements the
rep and lapse counters back to their original values; the rollback is
pure restoration of the pre-event snapshot held in the log. -/
theorem c2_rollback_exact_inverse (p : Params) (seed : ℕ) (c : Card) (now : ℤ)
    (g : Grade) :
    ∃ c0 : Card,
      rollback (apply_grade p seed c now g).card (apply_grade p seed c now g).log =
        some c0 ∧
      c0.due = c.due ∧ c0.stability = c.stability ∧ c0.difficulty = c.difficulty ∧
      c0.state = c.state ∧ c0.elapsed_days = c.elapsed_days ∧
      c0.scheduled_days = c.scheduled_days ∧ c0.reps = c.reps ∧
      c0.lapses = c.lapses := by
  refine ⟨_, rfl, rfl, rfl, rfl, rfl, rfl, rfl, ?_, ?_⟩
  · show (apply_grade p seed c now g).card.reps - 1 = c.reps
    rw [apply_grade_reps]
    omega
  · show (apply_grade p seed c now g).card.lapses -
      (if g = Grade.again ∧ c.state = State.review then 1 else 0) = c.lapses
    rw [apply_grade_lapses]
    by_cases hP : g = Grade.again ∧ c.state = State.review
    · simp [hP]
    · simp [hP]

/-- C3: replay is deterministic.  The fuzz source is an explicit seed
argument of the embedded reschedule function, so two reschedule calls
with the same initial card, the same review history, the same options
(including the ordering comparator) and the same seed return the same
audit trail and the same reschedule item. -/
theorem c3_reschedule_deterministic (p : Params) (seed : ℕ) (current_card : Card)
    (reviews : List HistoryItem) (opts : RescheduleOptions) :
    reschedule p seed current_card reviews opts =
      reschedule p seed current_card reviews opts := rfl

/-- C8: next_interval equals the stability multiplied by the interval
modifier, rounded to whole days and clamped to [1, maximum_interval];
for every positive stability and nonnegative elapsed days, the result
lies between 1 and maximum_interval (whenever the configured
maximum_interval is at least 1, as every valid configuration has). -/
theorem c8_next_interval_bounds (p : Params) (s e : ℝ) (hs : 0 < s) (he : 0 ≤ e)
    (hm : 1 ≤ p.maximum_interval) :
    next_interval p s e =
      min (max (round (s * calculate_interval_modifier p.request_retention)) 1)
        p.maximum_interval ∧
    1 ≤ next_interval p s e ∧ next_interval p s e ≤ p.maximum_interval := by
  refine ⟨rfl, ?_, ?_⟩
  · exact le_min (le_max_right _ _) hm
  · exact min_le_right _ _

/-- Witness for C8 with the documented default retention and interval
cap, stability 10, elapsed 0. -/
theorem c8_witness :
    1 ≤ next_interval ⟨9 / 10, 36500, fun _ => 1, false, true⟩ 10 0 ∧
    next_interval ⟨9 / 10, 36500, fun _ => 1, false, true⟩ 10 0 ≤ 36500 :=
  ⟨(c8_next_interval_bounds ⟨9 / 10, 36500, fun _ => 1, false, true⟩ 10 0
      (by norm_num) le_rfl (by norm_num)).2.1,
   (c8_next_interval_bounds ⟨9 / 10, 36500, fun _ => 1, false, true⟩ 10 0
      (by norm_num) le_rfl (by norm_num)).2.2⟩

/-- C9: the fuzz band is a deterministic function of the interval and
maximum_interval only: changing the elapsed-days argument between two
runs never changes the band. -/
theorem c9_fuzz_range_elapsed_independent (interval maximum_interval e1 e2 : ℚ) :
    get_fuzz_range interval e1 maximum_interval =
      get_fuzz_range interval e2 maximum_interval := rfl

/-- C10: generatorParameters called with no overrides yields the
documented defaults request_retention = 0.9, maximum_interval = 36500,
enable_fuzz = false and enable_short_term = true (together with the
default weight vector). -/
theorem c10_generator_defaults :
    generatorParameters {} =
      Except.ok ⟨9 / 10, 36500, default_w, false, true⟩ := by
  show (if 0 < default_request_retention ∧ default_request_retention ≤ 1 then
      if default_w.length = 19 then
        Except.ok (⟨default_request_retention, default_maximum_interval, default_w,
          default_enable_fuzz, default_enable_short_term⟩ : FSRSParameters)
      else Except.error ParamError.invalid_w
    else Except.error ParamError.invalid_retention) =
    Except.ok ⟨9 / 10, 36500, default_w, false, true⟩
  rw [if_pos (by norm_num [default_request_retention] :
    (0 : ℚ) < default_request_retention ∧ default_request_retention ≤ 1)]
  rw [if_pos (by norm_num [default_w] : default_w.length = 19)]
  rfl

lemma generatorParameters_spec (props : PartialFSRSParameters) :
    generatorParameters props =
      if 0 < props.request_retention.getD default_request_retention ∧
          props.request_retention.getD default_request_retention ≤ 1 then
        if (props.w.getD default_w).length = 19 then
          Except.ok ⟨props.request_retention.getD default_request_retention,
            props.maximum_interval.getD default_maximum_interval,
            props.w.getD default_w,
            props.enable_fuzz.getD default_enable_fuzz,
            props.enable_short_term.getD default_enable_short_term⟩
        else Except.error ParamError.invalid_w
      else Except.error ParamError.invalid_retention := rfl

/-- C6: parameter construction validates instead of clamping:
request_retention = 1.0 is accepted, request_retention = 0 and 1.1 are
rejected with a range error, a malformed weight vector is rejected at
construction, and every accepted construction returns exactly the
merged inputs unchanged (no silent clamping of any constructor
input). -/
theorem c6_parameter_validation :
    (generatorParameters { request_retention := some 1 }).isOk = true ∧
    generatorParameters { request_retention := some 0 } =
      Except.error ParamError.invalid_retention ∧
    generatorParameters { request_retention := some (11 / 10) } =
      Except.error ParamError.invalid_retention ∧
    generatorParameters { w := some [1, 2, 3] } =
      Except.error ParamError.invalid_w ∧
    (∀ props p, generatorParameters props = Except.ok p →
      p.request_retention = props.request_retention.getD default_request_retention ∧
      p.maximum_interval = props.maximum_interval.getD default_maximum_interval ∧
      p.w = props.w.getD default_w ∧
      p.enable_fuzz = props.enable_fuzz.getD default_enable_fuzz ∧
      p.enable_short_term = props.enable_short_term.getD default_enable_short_term) := by
  refine ⟨?_, ?_, ?_, ?_, ?_⟩
  · rw [generatorParameters_spec]
    rw [if_pos (by norm_num), if_pos (by norm_num [default_w])]
    rfl
  · rw [generatorParameters_spec]
    rw [if_neg (by norm_num)]
  · rw [generatorParameters_spec]
    rw [if_neg (by norm_num)]
  · rw [generatorParameters_spec]
    rw [if_pos (by norm_num [default_request_retention]), if_neg (by norm_num)]
  · intro props p h
    rw [generatorParameters_spec] at h
    split_ifs at h with h1 h2
    · injection h with hh
      subst hh
      exact ⟨rfl, rfl, rfl, rfl, rfl⟩

/-- Witness for C6: a fully overridden accepted construction returns
every input unchanged. -/
theorem c6_witness :
    (⟨19 / 20, 100, List.replicate 19 1, true, false⟩ :
        FSRSParameters).request_retention =
      (some (19 / 20 : ℚ)).getD default_request_retention ∧
    (⟨19 / 20, 100, List.replicate 19 1, true, false⟩ :
        FSRSParameters).maximum_interval =
      (some (100 : ℤ)).getD default_maximum_interval ∧
    (⟨19 / 20, 100, List.replicate 19 1, true, false⟩ : FSRSParameters).w =
      (some (List.replicate 19 (1 : ℚ))).getD default_w ∧
    (⟨19 / 20, 100, List.replicate 19 1, true, false⟩ :
        FSRSParameters).enable_fuzz = (some true).getD default_enable_fuzz ∧
    (⟨19 / 20, 100, List.replicate 19 1, true, false⟩ :
        FSRSParameters).enable_short_term =
      (some false).getD default_enable_short_term :=
  c6_parameter_validation.2.2.2.2
    ⟨some (19 / 20), some 100, some (List.replicate 19 1), some true, some false⟩
    ⟨19 / 20, 100, List.replicate 19 1, true, false⟩
    (by
      rw [generatorParameters_spec]
      rw [if_pos (by norm_num), if_pos (by norm_num)]
      rfl)
